import Mathlib

/-!
Blog posts manager (`src/blog/js/blog-new.js`).

A shallow embedding of the filter / paginate / render pipeline of the blog
listing widget, and the properties of it that the specification states.

Modelling conventions.

* The four module-level variables (`allPosts`, `filteredPosts`,
  `currentCategory`, `currentPage`) form the record `State`; every function
  that assigns one of them returns the new record.
* The four mount points (`#blog-categories`, `#blog-posts-grid`,
  `#blog-pagination`, `#blog-search`) form the record `Dom`.  A region that is
  missing from the page is `none`; a region that exists holds its content.
  The HTML text assigned to `innerHTML` is kept as the list of elements it
  denotes.  Post text is written into that text unescaped: a control's
  `data-category` is modelled as the parser reads it back up to a double
  quote (`dataCategory`), and the statements about the controls of
  `renderCategories` take the categories to be `plainText`.
* Page numbers are integers (`Int`), so that `currentPage - 1` and the
  negative-index rule of `Array.prototype.slice` are the ones of the source.
* `String.prototype.toLowerCase` and `Date.prototype.toLocaleDateString` are
  functions of the host platform, not of this file: they are the two fields
  of `Platform`, a parameter of everything that calls them.
-/

namespace BlogManager

/-! ## Data model -/

/-- A post record of `posts-data.json`. -/
structure Post where
  title : String
  description : String
  category : String
  date : String
  author : String
  url : String
  cover : String
  deriving DecidableEq, Repr

/-- Host functions used by the source. -/
structure Platform where
  /-- The method `String.prototype.toLowerCase`. -/
  toLowerCase : String → String
  /-- The call `new Date(s).toLocaleDateString('en-US', ...)` of `formatDate`. -/
  toLocaleDateString : String → String

/-- The module-level variables, lines 4-7. -/
structure State where
  allPosts : List Post
  filteredPosts : List Post
  currentCategory : String
  currentPage : Int
  deriving DecidableEq, Repr

/-- The constant `postsPerPage`, line 8. -/
def postsPerPage : Nat := 9

/-- The values of the module-level variables before `loadPosts` runs. -/
def State.start : State :=
  { allPosts := [], filteredPosts := [], currentCategory := "all", currentPage := 1 }

/-- A value read from the object `categoryCount`: a number, or a value that
is not a number (a member that the object inherits, or the text that adding
1 to such a member makes). -/
inductive CountValue where
  | number (n : Nat)
  | other
  deriving DecidableEq, Repr

/-- One `<button class="category-btn ...">` of the categories region, with
the count shown in its label. -/
structure CategoryButton where
  active : Bool
  category : String
  count : CountValue
  deriving DecidableEq, Repr

/-- One `<article class="blog-card">` of the grid region. -/
structure Card where
  href : String
  imgSrc : String
  imgAlt : String
  category : String
  date : String
  author : String
  title : String
  description : String
  deriving DecidableEq, Repr

/-- Content of the grid region: the empty-state message, or a run of cards. -/
inductive GridContent where
  | noPosts
  | cards (cs : List Card)
  deriving DecidableEq, Repr

/-- One element of the pagination region. -/
inductive PageItem where
  /-- The element `<button class="page-btn" data-page=target>Previous</button>`. -/
  | previous (target : Int)
  /-- The element `<button class="page-btn [active]" data-page=page>page</button>`. -/
  | number (page : Int) (active : Bool)
  /-- The element `<span class="page-dots">...</span>`. -/
  | dots
  /-- The element `<button class="page-btn" data-page=target>Next</button>`. -/
  | next (target : Int)
  deriving DecidableEq, Repr

/-- The mount points of the page; `none` is a region absent from the page.
`search` is the text currently in the search box. -/
structure Dom where
  categories : Option (List CategoryButton)
  grid : Option GridContent
  pagination : Option (List PageItem)
  search : Option String
  deriving DecidableEq, Repr

/-- The variables together with the page. -/
structure World where
  state : State
  dom : Dom
  deriving DecidableEq, Repr

/-! ## Array and string primitives -/

/-- The clamping of a relative index in `Array.prototype.slice`: a negative
index counts from the end, and the result lies in `[0, len]`. -/
def relativeIndex (len : Nat) (i : Int) : Nat :=
  if i < 0 then ((len : Int) + i).toNat else min i.toNat len

/-- The method `Array.prototype.slice(start, stop)` on integer arguments. -/
def slice {α : Type} (xs : List α) (start stop : Int) : List α :=
  let k := relativeIndex xs.length start
  let final := relativeIndex xs.length stop
  (xs.drop k).take (final - k)

/-- Does `q` begin the list `s`? -/
def startsWith : List Char → List Char → Bool
  | _, [] => true
  | [], _ :: _ => false
  | c :: cs, d :: ds => c == d && startsWith cs ds

/-- Does `q` occur in `s` as a contiguous run? -/
def includesList : List Char → List Char → Bool
  | [], q => startsWith [] q
  | c :: cs, q => startsWith (c :: cs) q || includesList cs q

/-- The method `String.prototype.includes`. -/
def includes (s q : String) : Bool := includesList s.data q.data

/-- The distinct values of a list in first-seen order: `[...new Set(xs)]`. -/
def distinct (xs : List String) : List String :=
  xs.foldl (fun seen x => if x ∈ seen then seen else seen ++ [x]) []

/-! ## `loadPosts`, lines 19-30 -/

/-- What `fetch` followed by `response.json()` can deliver: a failure of the
fetch or of the parse, or a document whose `posts` field is absent or a list
of posts. -/
inductive FetchOutcome where
  | failure
  | document (posts : Option (List Post))
  deriving DecidableEq, Repr

/-- The function `loadPosts`. -/
def loadPosts (outcome : FetchOutcome) (st : State) : State :=
  match outcome with
  | .document posts =>
    let allPosts := posts.getD []
    { st with allPosts := allPosts, filteredPosts := allPosts }
  | .failure => { st with allPosts := [], filteredPosts := [] }

/-! ## `renderCategories`, lines 33-55 -/

/-- The property names that the object literal `{}` of line 38 inherits from
`Object.prototype` (ECMAScript, with its annex B). -/
def objectPrototypeNames : List String :=
  ["constructor", "hasOwnProperty", "isPrototypeOf", "propertyIsEnumerable",
   "toLocaleString", "toString", "valueOf", "__proto__", "__defineGetter__",
   "__defineSetter__", "__lookupGetter__", "__lookupSetter__"]

/-- The expression `(v || 0) + 1` of line 41: the next number, or text when
`v` is not a number. -/
def CountValue.addOne : CountValue → CountValue
  | .number n => .number (n + 1)
  | .other => .other

/-- The object `categoryCount` after the `forEach` of lines 40-42, read as
`categoryCount[cat] || 0`.  Before the loop a key reads as 0 (it is absent),
unless the object inherits a member of that name. -/
def categoryCount (allPosts : List Post) : String → CountValue :=
  allPosts.foldl
    (fun count post => fun cat => if cat = post.category then (count cat).addOne else count cat)
    (fun cat => if cat ∈ objectPrototypeNames then CountValue.other else CountValue.number 0)

/-- The code points that the HTML parser does not read back as written from the
text assigned to `innerHTML`: NUL, carriage return, the double quote, `&`
and `<`. -/
def markupCodes : List Nat := [0, 13, 34, 38, 60]

/-- Is the text free of the characters that the HTML parser treats as
markup? -/
def plainText (s : String) : Bool :=
  s.data.all (fun ch => decide (ch.toNat ∉ markupCodes))

/-- The value of `data-category` that a control holds once line 54 has
assigned `innerHTML`: line 48 writes the category unescaped between double
quotes, so the value ends at the first double quote of the category.  (The
other markup characters are not modelled; on `plainText` the value is the
category itself.) -/
def dataCategory (cat : String) : String :=
  String.mk (cat.data.takeWhile (fun ch => decide (ch.toNat ≠ 34)))

/-- The function `renderCategories`. -/
def renderCategories (st : State) (dom : Dom) : Dom :=
  match dom.categories with
  | none => dom
  | some _ =>
    let categories := "all" :: distinct (st.allPosts.map (fun post => post.category))
    let html := categories.map (fun cat =>
      let count :=
        if cat = "all" then CountValue.number st.allPosts.length
        else categoryCount st.allPosts cat
      let active := decide (cat = st.currentCategory)
      ({ active := active, category := dataCategory cat, count := count } : CategoryButton))
    { dom with categories := some html }

/-! ## `renderPagination`, lines 96-130 -/

/-- The value `Math.ceil(filteredPosts.length / postsPerPage)` of line 100. -/
def totalPages (filteredPosts : List Post) : Nat :=
  (filteredPosts.length + (postsPerPage - 1)) / postsPerPage

/-- What one round `i` of the loop of lines 115-122 appends to `html`. -/
def pageLoopBody (totalPages : Nat) (currentPage : Int) (i : Nat) : List PageItem :=
  if i = 1 ∨ i = totalPages ∨ ((i : Int) ≥ currentPage - 1 ∧ (i : Int) ≤ currentPage + 1) then
    let active := decide ((i : Int) = currentPage)
    [PageItem.number i active]
  else if (i : Int) = currentPage - 2 ∨ (i : Int) = currentPage + 2 then
    [PageItem.dots]
  else
    []

/-- The loop `for (let i = 1; i <= totalPages; i++)` of lines 115-122,
started from the text built so far. -/
def pageLoop (totalPages : Nat) (currentPage : Int) (html : List PageItem) : List PageItem :=
  (List.range' 1 totalPages).foldl
    (fun html i => html ++ pageLoopBody totalPages currentPage i) html

/-- The text `html` built by lines 107-127 when there is more than one page. -/
def paginationHtml (totalPages : Nat) (currentPage : Int) : List PageItem :=
  let html := []
  let html := if currentPage > 1 then html ++ [PageItem.previous (currentPage - 1)] else html
  let html := pageLoop totalPages currentPage html
  let html := if currentPage < totalPages then html ++ [PageItem.next (currentPage + 1)] else html
  html

/-- The function `renderPagination`. -/
def renderPagination (st : State) (dom : Dom) : Dom :=
  match dom.pagination with
  | none => dom
  | some _ =>
    let totalPages := totalPages st.filteredPosts
    if totalPages ≤ 1 then
      { dom with pagination := some [] }
    else
      { dom with pagination := some (paginationHtml totalPages st.currentPage) }

/-! ## `renderPosts`, lines 58-93 -/

/-- The function `formatDate`, lines 190-197. -/
def formatDate (P : Platform) (dateString : String) : String :=
  P.toLocaleDateString dateString

/-- The card that the template of lines 71-89 builds for one post. -/
def renderCard (P : Platform) (post : Post) : Card :=
  { href := post.url
    imgSrc := post.cover
    imgAlt := post.title
    category := post.category
    date := formatDate P post.date
    author := post.author
    title := post.title
    description := post.description }

/-- The list `postsToShow` of lines 67-69. -/
def postsToShow (filteredPosts : List Post) (currentPage : Int) : List Post :=
  let startIndex := (currentPage - 1) * (postsPerPage : Int)
  let endIndex := startIndex + (postsPerPage : Int)
  slice filteredPosts startIndex endIndex

/-- The function `renderPosts`. -/
def renderPosts (P : Platform) (st : State) (dom : Dom) : Dom :=
  match dom.grid with
  | none => dom
  | some _ =>
    if st.filteredPosts.length = 0 then
      { dom with grid := some GridContent.noPosts }
    else
      let html := (postsToShow st.filteredPosts st.currentPage).map (renderCard P)
      renderPagination st { dom with grid := some (GridContent.cards html) }

/-! ## `getLatestPosts`, lines 200-202 -/

/-- The function `getLatestPosts`; `count` is `none` when the call passes no
argument, and the default 3 then applies.  The function assigns no variable. -/
def getLatestPosts (st : State) (count : Option Int) : List Post :=
  slice st.allPosts 0 (count.getD 3)

/-! ## The handlers of `setupEventListeners`, lines 133-187 -/

/-- The category-filtered base set: `allPosts` itself for `"all"`, else the
posts of that category (lines 140-144, 170-172 and 174-176). -/
def categoryFilter (allPosts : List Post) (currentCategory : String) : List Post :=
  if currentCategory = "all" then allPosts
  else allPosts.filter (fun post => decide (post.category = currentCategory))

/-- The click listener of lines 135-151, run for a click on the element
number `target` of the categories region, whose `data-category` is
`category`. -/
def categoryClickHandler (P : Platform) (w : World) (target : Nat) (category : String) :
    World :=
  let st := { w.state with currentCategory := category, currentPage := 1 }
  let st := { st with filteredPosts := categoryFilter st.allPosts st.currentCategory }
  let dom := { w.dom with
    categories := w.dom.categories.map (fun btns =>
      btns.mapIdx (fun j btn => { btn with active := decide (j = target) })) }
  { state := st, dom := renderPosts P st dom }

/-- The click listener of lines 154-160, run for a click on an element of
class `page-btn` whose `data-page` parses to `page`. -/
def paginationClickHandler (P : Platform) (w : World) (page : Int) : World :=
  let st := { w.state with currentPage := page }
  { state := st, dom := renderPosts P st w.dom }

/-- The input listener of lines 165-185, run with `e.target.value = value`. -/
def searchInputHandler (P : Platform) (w : World) (value : String) : World :=
  let query := P.toLowerCase value
  let st := { w.state with currentPage := 1 }
  let st :=
    if query = "" then
      { st with filteredPosts := categoryFilter st.allPosts st.currentCategory }
    else
      let baseFilter := categoryFilter st.allPosts st.currentCategory
      { st with filteredPosts := baseFilter.filter (fun post =>
          includes (P.toLowerCase post.title) query ||
          includes (P.toLowerCase post.description) query) }
  { state := st, dom := renderPosts P st w.dom }

/-! ## The page as a transition system -/

/-- The `data-page` of an element of the pagination region that carries the
class `page-btn`. -/
def PageItem.dataPage : PageItem → Option Int
  | .previous target => some target
  | .number page _ => some page
  | .dots => none
  | .next target => some target

/-- A user action: a click on the element number `i` of the categories
region, a click on the element number `i` of the pagination region, or an
edit of the search box that leaves `value` in it. -/
inductive Event where
  | categoryClick (i : Nat)
  | pageClick (i : Nat)
  | search (value : String)
  deriving DecidableEq, Repr

/-- The listener of lines 11-16: load, first render, registration. -/
def domContentLoaded (P : Platform) (outcome : FetchOutcome) (dom : Dom) : World :=
  let st := loadPosts outcome State.start
  let dom := renderCategories st dom
  let dom := renderPosts P st dom
  { state := st, dom := dom }

/-- Delivery of one user action to the registered listeners.  An action on
an element that the page does not hold changes nothing. -/
def dispatch (P : Platform) (w : World) : Event → World
  | .categoryClick i =>
    match (w.dom.categories.getD [])[i]? with
    | some btn => categoryClickHandler P w i btn.category
    | none => w
  | .pageClick i =>
    match ((w.dom.pagination.getD [])[i]?).bind PageItem.dataPage with
    | some page => paginationClickHandler P w page
    | none => w
  | .search value =>
    match w.dom.search with
    | some _ => searchInputHandler P { w with dom := { w.dom with search := some value } } value
    | none => w

/-- The world after a sequence of user actions. -/
def run (P : Platform) (w : World) (events : List Event) : World :=
  events.foldl (dispatch P) w

/-- The world `w` is reached from a completed load on the page `dom`. -/
def Reachable (P : Platform) (outcome : FetchOutcome) (dom : Dom) (w : World) : Prop :=
  ∃ events : List Event, w = run P (domContentLoaded P outcome dom) events

/-! ## Reading the pagination region -/

/-- The page and the active mark of a numbered control; nothing for the
other elements. -/
def PageItem.asNumber : PageItem → Option (Int × Bool)
  | .number page active => some (page, active)
  | _ => none

/-- The numbered controls of a pagination text, in the order of the text. -/
def numberedControls (html : List PageItem) : List (Int × Bool) :=
  html.filterMap PageItem.asNumber

/-- The page numbers of the numbered controls of a pagination text. -/
def numberedPages (html : List PageItem) : List Int :=
  (numberedControls html).map Prod.fst

/-! ## The specification's wording, for comparison with the code -/

/-- The windowed ellipsis scheme as the specification words it: one numbered
control per page of the list, the one for `currentPage` marked active, and
exactly one ellipsis marker between two consecutive pages that differ by more
than 1. -/
def withEllipses (currentPage : Int) : List Int → List PageItem
  | [] => []
  | [p] => [PageItem.number p (decide (p = currentPage))]
  | p :: q :: rest =>
    PageItem.number p (decide (p = currentPage)) ::
      ((if q - p > 1 then [PageItem.dots] else []) ++ withEllipses currentPage (q :: rest))

/-- The visible set as the specification's invariant words it: `allPosts`
filtered by the current category (unless it is `"all"`) and further by the
text in the search box, when that text is not empty (case-insensitive match
on title or description). -/
def visiblePosts (P : Platform) (allPosts : List Post) (currentCategory searchText : String) :
    List Post :=
  let byCategory :=
    if currentCategory = "all" then allPosts
    else allPosts.filter (fun post => decide (post.category = currentCategory))
  if searchText = "" then byCategory
  else byCategory.filter (fun post =>
    includes (P.toLowerCase post.title) (P.toLowerCase searchText) ||
    includes (P.toLowerCase post.description) (P.toLowerCase searchText))

/-! ## The invariant of the page controls -/

/-- The page is in range for a non-empty result, every control of the
pagination region then targets a page in range, and a page without grid
region holds no page control. -/
def PageInRange (w : World) : Prop :=
  (w.state.filteredPosts ≠ [] →
      1 ≤ w.state.currentPage ∧ w.state.currentPage ≤ (totalPages w.state.filteredPosts : Int))
    ∧ (w.state.filteredPosts ≠ [] →
        ∀ x ∈ w.dom.pagination.getD [], ∀ page : Int, x.dataPage = some page →
          1 ≤ page ∧ page ≤ (totalPages w.state.filteredPosts : Int))
    ∧ (w.dom.grid = none → w.dom.pagination.getD [] = [])

/-! ## Sample data for the closed statements -/

/-- A platform whose lower-casing maps the letters `A`-`Z` and whose date
format is the identity. -/
def asciiPlatform : Platform :=
  { toLowerCase := fun s => String.mk (s.data.map Char.toLower)
    toLocaleDateString := fun s => s }

/-- A post with the given title and category. -/
def samplePost (title category : String) : Post :=
  { title := title, description := "", category := category, date := "2024-01-05",
    author := "ann", url := "post.html", cover := "cover.png" }

/-- A page that has all four mount points, each of them empty. -/
def emptyPage : Dom :=
  { categories := some [], grid := some (GridContent.cards []), pagination := some [],
    search := some "" }

/-- Three posts: two in the category `tech`, one in `life`. -/
def threePosts : List Post :=
  [samplePost "Alpha" "tech", samplePost "Beta" "tech", samplePost "Gamma" "life"]

/-- Ten posts of one category: two pages. -/
def tenPosts : List Post := List.replicate 10 (samplePost "Alpha" "tech")

/-- A state with 82 visible posts, ten pages, and page 5 current. -/
def tenPagesState : State :=
  { allPosts := List.replicate 82 (samplePost "Alpha" "tech"),
    filteredPosts := List.replicate 82 (samplePost "Alpha" "tech"),
    currentCategory := "all", currentPage := 5 }

/-- Two posts, the first of them in a category that is named `all`. -/
def allNamedPosts : List Post := [samplePost "Alpha" "all", samplePost "Beta" "tech"]

/-- Two posts whose categories differ only after a double quote: the first
category is `a`, a double quote, `b`; the second is `a`. -/
def quotedPosts : List Post :=
  [samplePost "Alpha" (String.mk ['a', Char.ofNat 34, 'b']), samplePost "Beta" "a"]

/-- Twelve posts with twelve titles. -/
def twelvePosts : List Post :=
  ["P01", "P02", "P03", "P04", "P05", "P06", "P07", "P08", "P09", "P10", "P11", "P12"].map
    (fun title => samplePost title "tech")

/-- The pagination text for two pages with page 1 current. -/
def twoPageControls : List PageItem :=
  [PageItem.number 1 true, PageItem.number 2 false, PageItem.next 2]

/-! ## Lemmas on the primitives -/

theorem startsWith_iff (s q : List Char) : startsWith s q = true ↔ q <+: s := by
  induction s generalizing q with
  | nil => cases q <;> simp [startsWith]
  | cons c cs ih =>
    cases q with
    | nil => simp [startsWith]
    | cons d ds =>
      simp only [startsWith, Bool.and_eq_true, beq_iff_eq, ih, List.cons_prefix_cons]
      constructor
      · rintro ⟨h1, h2⟩; exact ⟨h1.symm, h2⟩
      · rintro ⟨h1, h2⟩; exact ⟨h1.symm, h2⟩

theorem includesList_iff (s q : List Char) : includesList s q = true ↔ q <:+: s := by
  induction s with
  | nil => simp [includesList, startsWith_iff]
  | cons c cs ih =>
    simp only [includesList, Bool.or_eq_true, startsWith_iff, ih, List.infix_cons_iff]

theorem includes_iff (s q : String) : includes s q = true ↔ q.data <:+: s.data :=
  includesList_iff s.data q.data

theorem includes_empty (s : String) : includes s "" = true := by
  rw [includes_iff]; exact List.nil_infix

theorem length_postsToShow (fp : List Post) (p : Int) (hp : 1 ≤ p) :
    (postsToShow fp p).length = min (p.toNat * 9) fp.length - (p.toNat - 1) * 9 := by
  simp only [postsToShow, slice, relativeIndex, postsPerPage, List.length_take, List.length_drop]
  have h1 : ¬ ((p - 1) * ((9 : Nat) : Int) < 0) := by omega
  have h2 : ¬ ((p - 1) * ((9 : Nat) : Int) + ((9 : Nat) : Int) < 0) := by omega
  rw [if_neg h1, if_neg h2]
  omega

theorem getElem?_postsToShow (fp : List Post) (p : Int) (hp : 1 ≤ p) (k : Nat) (hk : k < 9) :
    (postsToShow fp p)[k]? = fp[(p.toNat - 1) * 9 + k]? := by
  simp only [postsToShow, slice, relativeIndex, postsPerPage]
  have h1 : ¬ ((p - 1) * ((9 : Nat) : Int) < 0) := by omega
  have h2 : ¬ ((p - 1) * ((9 : Nat) : Int) + ((9 : Nat) : Int) < 0) := by omega
  rw [if_neg h1, if_neg h2]
  by_cases hlen : (p.toNat - 1) * 9 + k < fp.length
  · rw [List.getElem?_take_of_lt (by omega), List.getElem?_drop]
    congr 1
    omega
  · rw [List.getElem?_eq_none (by omega : fp.length ≤ (p.toNat - 1) * 9 + k)]
    apply List.getElem?_eq_none
    simp only [List.length_take, List.length_drop]
    omega

theorem totalPages_bounds (fp : List Post) :
    fp.length ≤ 9 * totalPages fp ∧ 9 * totalPages fp ≤ fp.length + 8 := by
  simp only [totalPages, postsPerPage]
  omega

theorem totalPages_eq_ceil (fp : List Post) :
    ((totalPages fp : Nat) : Int) = ⌈(fp.length : ℚ) / 9⌉ := by
  symm
  rw [Int.ceil_eq_iff]
  obtain ⟨hT2, hT1⟩ := totalPages_bounds fp
  have hT1q : (9 : ℚ) * (totalPages fp : ℚ) ≤ (fp.length : ℚ) + 8 := by exact_mod_cast hT1
  have hT2q : (fp.length : ℚ) ≤ 9 * (totalPages fp : ℚ) := by exact_mod_cast hT2
  constructor
  · rw [lt_div_iff₀ (by norm_num : (0 : ℚ) < 9)]
    push_cast
    linarith
  · rw [div_le_iff₀ (by norm_num : (0 : ℚ) < 9)]
    push_cast
    linarith

theorem renderPagination_grid (st : State) (dom : Dom) :
    (renderPagination st dom).grid = dom.grid := by
  unfold renderPagination
  cases dom.pagination with
  | none => rfl
  | some prior =>
    by_cases hT : totalPages st.filteredPosts ≤ 1 <;> simp [hT]

theorem pageLoop_eq_flatMap (T : Nat) (c : Int) (html : List PageItem) :
    pageLoop T c html = html ++ (List.range' 1 T).flatMap (pageLoopBody T c) := by
  unfold pageLoop
  generalize List.range' 1 T = l
  induction l generalizing html with
  | nil => simp
  | cons i l ih => simp [List.foldl_cons, ih, List.flatMap_cons, List.append_assoc]

theorem body_shown {T : Nat} {c : Int} {i : Nat}
    (h : i = 1 ∨ i = T ∨ ((i : Int) ≥ c - 1 ∧ (i : Int) ≤ c + 1)) :
    pageLoopBody T c i = [PageItem.number (i : Int) (decide ((i : Int) = c))] := by
  unfold pageLoopBody
  rw [if_pos h]

theorem body_dots {T : Nat} {c : Int} {i : Nat}
    (h : ¬ (i = 1 ∨ i = T ∨ ((i : Int) ≥ c - 1 ∧ (i : Int) ≤ c + 1)))
    (hd : (i : Int) = c - 2 ∨ (i : Int) = c + 2) :
    pageLoopBody T c i = [PageItem.dots] := by
  unfold pageLoopBody
  rw [if_neg h, if_pos hd]

theorem body_nothing {T : Nat} {c : Int} {i : Nat}
    (h : ¬ (i = 1 ∨ i = T ∨ ((i : Int) ≥ c - 1 ∧ (i : Int) ≤ c + 1)))
    (hd : ¬ ((i : Int) = c - 2 ∨ (i : Int) = c + 2)) :
    pageLoopBody T c i = [] := by
  unfold pageLoopBody
  rw [if_neg h, if_neg hd]

theorem flatMap_body_eq_nil (T : Nat) (c : Int) (a m : Nat)
    (h : ∀ i, a ≤ i → i < a + m → pageLoopBody T c i = []) :
    (List.range' a m).flatMap (pageLoopBody T c) = [] := by
  induction m generalizing a with
  | zero => simp
  | succ m ih =>
    rw [List.range'_succ, List.flatMap_cons, h a (le_refl a) (by omega),
      ih (a + 1) (fun i h1 h2 => h i (by omega) (by omega))]
    rfl

theorem numberedPages_append (xs ys : List PageItem) :
    numberedPages (xs ++ ys) = numberedPages xs ++ numberedPages ys := by
  simp [numberedPages, numberedControls, List.filterMap_append]

theorem withEllipses_gap (c p q : Int) (rest : List Int) (h : q - p > 1) :
    withEllipses c (p :: q :: rest)
      = PageItem.number p (decide (p = c)) :: PageItem.dots :: withEllipses c (q :: rest) := by
  simp [withEllipses, h]

theorem withEllipses_adjacent (c p q : Int) (rest : List Int) (h : ¬ q - p > 1) :
    withEllipses c (p :: q :: rest)
      = PageItem.number p (decide (p = c)) :: withEllipses c (q :: rest) := by
  simp [withEllipses, h]

theorem range_left_split (k : Nat) :
    List.range' 1 (k + 3) = 1 :: (List.range' 2 k ++ [k + 2, k + 3]) := by
  rw [List.range'_succ, List.range'_1_concat, List.range'_1_concat]
  simp [List.append_assoc, Nat.add_comm]

theorem range_right_split (n k : Nat) :
    List.range' (n + 1) (k + 3) = (n + 1) :: (n + 2) :: (List.range' (n + 3) k ++ [n + k + 3]) := by
  rw [List.range'_succ, List.range'_succ, List.range'_1_concat]
  simp [Nat.add_assoc, Nat.add_comm, Nat.add_left_comm]

theorem left_window (T n : Nat) (hn1 : 1 ≤ n) (hnT : n ≤ T) (rest : List Int) :
    (List.range' 1 (n - 1)).flatMap (pageLoopBody T n) ++ withEllipses n ((n : Int) :: rest)
      = withEllipses n
          (numberedPages ((List.range' 1 (n - 1)).flatMap (pageLoopBody T n))
            ++ (n : Int) :: rest) := by
  by_cases h4 : 4 ≤ n
  · obtain ⟨k, rfl⟩ : ∃ k, n = k + 4 := ⟨n - 4, by omega⟩
    have hL : (List.range' 1 (k + 4 - 1)).flatMap (pageLoopBody T ((k + 4 : Nat) : Int))
        = [PageItem.number ((1 : Nat) : Int) (decide (((1 : Nat) : Int) = ((k + 4 : Nat) : Int))),
           PageItem.dots,
           PageItem.number ((k + 3 : Nat) : Int)
             (decide (((k + 3 : Nat) : Int) = ((k + 4 : Nat) : Int)))] := by
      have hsub : k + 4 - 1 = k + 3 := rfl
      rw [hsub, range_left_split, List.flatMap_cons, List.flatMap_append,
        flatMap_body_eq_nil _ _ _ _ (fun i h1 h2 => body_nothing (by omega) (by omega)),
        List.flatMap_cons, List.flatMap_cons, List.flatMap_nil,
        body_shown (by omega), body_dots (by omega) (by omega), body_shown (by omega)]
      rfl
    rw [hL]
    show _ = withEllipses _ (((1 : Nat) : Int) :: ((k + 3 : Nat) : Int) :: ((k + 4 : Nat) : Int) :: rest)
    rw [withEllipses_gap _ _ _ _ (by omega), withEllipses_adjacent _ _ _ _ (by omega)]
    rfl
  · have h123 : n = 1 ∨ n = 2 ∨ n = 3 := by omega
    rcases h123 with rfl | rfl | rfl
    · rfl
    · have hL : (List.range' 1 (2 - 1)).flatMap (pageLoopBody T ((2 : Nat) : Int))
          = [PageItem.number ((1 : Nat) : Int) (decide (((1 : Nat) : Int) = ((2 : Nat) : Int)))] := by
        show (pageLoopBody T ((2 : Nat) : Int) 1) ++ [] = _
        rw [body_shown (by omega)]
        rfl
      rw [hL]
      show _ = withEllipses _ (((1 : Nat) : Int) :: ((2 : Nat) : Int) :: rest)
      rw [withEllipses_adjacent _ _ _ _ (by omega)]
      rfl
    · have hL : (List.range' 1 (3 - 1)).flatMap (pageLoopBody T ((3 : Nat) : Int))
          = [PageItem.number ((1 : Nat) : Int) (decide (((1 : Nat) : Int) = ((3 : Nat) : Int))),
             PageItem.number ((2 : Nat) : Int) (decide (((2 : Nat) : Int) = ((3 : Nat) : Int)))] := by
        show (pageLoopBody T ((3 : Nat) : Int) 1) ++ ((pageLoopBody T ((3 : Nat) : Int) 2) ++ []) = _
        rw [body_shown (by omega), body_shown (by omega)]
        rfl
      rw [hL]
      show _ = withEllipses _ (((1 : Nat) : Int) :: ((2 : Nat) : Int) :: ((3 : Nat) : Int) :: rest)
      rw [withEllipses_adjacent _ _ _ _ (by omega), withEllipses_adjacent _ _ _ _ (by omega)]
      rfl

theorem right_window (T n : Nat) (hn1 : 1 ≤ n) (hnT : n ≤ T) :
    PageItem.number (n : Int) (decide ((n : Int) = (n : Int)))
        :: (List.range' (n + 1) (T - n)).flatMap (pageLoopBody T n)
      = withEllipses n
          ((n : Int) :: numberedPages ((List.range' (n + 1) (T - n)).flatMap (pageLoopBody T n))) := by
  by_cases h3 : n + 3 ≤ T
  · obtain ⟨k, rfl⟩ : ∃ k, T = n + k + 3 := ⟨T - n - 3, by omega⟩
    have hR : (List.range' (n + 1) (n + k + 3 - n)).flatMap (pageLoopBody (n + k + 3) (n : Int))
        = [PageItem.number ((n + 1 : Nat) : Int) (decide (((n + 1 : Nat) : Int) = (n : Int))),
           PageItem.dots,
           PageItem.number ((n + k + 3 : Nat) : Int)
             (decide (((n + k + 3 : Nat) : Int) = (n : Int)))] := by
      have hsub : n + k + 3 - n = k + 3 := by omega
      rw [hsub, range_right_split, List.flatMap_cons, List.flatMap_cons, List.flatMap_append,
        flatMap_body_eq_nil _ _ _ _ (fun i h1 h2 => body_nothing (by omega) (by omega)),
        List.flatMap_cons, List.flatMap_nil,
        body_shown (by omega), body_dots (by omega) (by omega), body_shown (by omega)]
      rfl
    rw [hR]
    show _ = withEllipses _ ((n : Int) :: ((n + 1 : Nat) : Int) :: ((n + k + 3 : Nat) : Int) :: [])
    rw [withEllipses_adjacent _ _ _ _ (by omega), withEllipses_gap _ _ _ _ (by omega)]
    rfl
  · have h012 : T = n ∨ T = n + 1 ∨ T = n + 2 := by omega
    rcases h012 with rfl | rfl | rfl
    · have hsub : T - T = 0 := by omega
      rw [hsub]
      rfl
    · have hsub : n + 1 - n = 1 := by omega
      have hR : (List.range' (n + 1) (n + 1 - n)).flatMap (pageLoopBody (n + 1) (n : Int))
          = [PageItem.number ((n + 1 : Nat) : Int) (decide (((n + 1 : Nat) : Int) = (n : Int)))] := by
        rw [hsub]
        show (pageLoopBody (n + 1) (n : Int) (n + 1)) ++ [] = _
        rw [body_shown (by omega)]
        rfl
      rw [hR]
      show _ = withEllipses _ ((n : Int) :: ((n + 1 : Nat) : Int) :: [])
      rw [withEllipses_adjacent _ _ _ _ (by omega)]
      rfl
    · have hsub : n + 2 - n = 2 := by omega
      have hR : (List.range' (n + 1) (n + 2 - n)).flatMap (pageLoopBody (n + 2) (n : Int))
          = [PageItem.number ((n + 1 : Nat) : Int) (decide (((n + 1 : Nat) : Int) = (n : Int))),
             PageItem.number ((n + 2 : Nat) : Int) (decide (((n + 2 : Nat) : Int) = (n : Int)))] := by
        rw [hsub]
        show (pageLoopBody (n + 2) (n : Int) (n + 1))
          ++ ((pageLoopBody (n + 2) (n : Int) (n + 1 + 1)) ++ []) = _
        rw [body_shown (by omega), body_shown (by omega)]
        rfl
      rw [hR]
      show _ = withEllipses _ ((n : Int) :: ((n + 1 : Nat) : Int) :: ((n + 2 : Nat) : Int) :: [])
      rw [withEllipses_adjacent _ _ _ _ (by omega), withEllipses_adjacent _ _ _ _ (by omega)]
      rfl

theorem range_split_at (T n : Nat) (hn1 : 1 ≤ n) (hnT : n ≤ T) :
    List.range' 1 T = List.range' 1 (n - 1) ++ n :: List.range' (n + 1) (T - n) := by
  have h1 : List.range' 1 T = List.range' 1 (n - 1) ++ List.range' (1 + (n - 1)) (T - n + 1) := by
    rw [List.range'_append_1]
    congr 1
    omega
  rw [h1, List.range'_succ]
  have h2 : 1 + (n - 1) = n := by omega
  rw [h2]

theorem pageLoop_window (T n : Nat) (hn1 : 1 ≤ n) (hnT : n ≤ T) :
    (List.range' 1 T).flatMap (pageLoopBody T n)
      = withEllipses n (numberedPages ((List.range' 1 T).flatMap (pageLoopBody T n))) := by
  rw [range_split_at T n hn1 hnT, List.flatMap_append, List.flatMap_cons,
    body_shown (by omega), numberedPages_append, List.singleton_append]
  have hmid : ∀ xs : List PageItem,
      numberedPages (PageItem.number (n : Int) (decide ((n : Int) = (n : Int))) :: xs)
        = (n : Int) :: numberedPages xs := fun _ => rfl
  rw [hmid, right_window T n hn1 hnT]
  exact left_window T n hn1 hnT _

theorem paginationHtml_eq (T : Nat) (c : Int) :
    paginationHtml T c
      = (if c > 1 then [PageItem.previous (c - 1)] else [])
          ++ (List.range' 1 T).flatMap (pageLoopBody T c)
          ++ (if c < (T : Int) then [PageItem.next (c + 1)] else []) := by
  unfold paginationHtml
  simp only [pageLoop_eq_flatMap, List.nil_append]
  by_cases h1 : c > 1 <;> by_cases h2 : c < (T : Int) <;> simp [h1, h2]

theorem numberedControls_flatMap_body (T : Nat) (c : Int) (l : List Nat) :
    numberedControls (l.flatMap (pageLoopBody T c))
      = (l.filter (fun i : Nat => decide (i = 1 ∨ i = T ∨ ((i : Int) ≥ c - 1 ∧ (i : Int) ≤ c + 1)))).map
          (fun i : Nat => ((i : Int), decide ((i : Int) = c))) := by
  induction l with
  | nil => rfl
  | cons i l ih =>
    rw [List.flatMap_cons]
    unfold numberedControls at ih ⊢
    rw [List.filterMap_append, ih]
    by_cases h : i = 1 ∨ i = T ∨ ((i : Int) ≥ c - 1 ∧ (i : Int) ≤ c + 1)
    · rw [body_shown h, List.filter_cons_of_pos (by simpa using h)]
      rfl
    · rw [List.filter_cons_of_neg (by simpa using h)]
      by_cases hd : (i : Int) = c - 2 ∨ (i : Int) = c + 2
      · rw [body_dots h hd]; rfl
      · rw [body_nothing h hd]; rfl

theorem numberedControls_paginationHtml (T : Nat) (c : Int) :
    numberedControls (paginationHtml T c)
      = ((List.range' 1 T).filter
          (fun i : Nat => decide (i = 1 ∨ i = T ∨ ((i : Int) ≥ c - 1 ∧ (i : Int) ≤ c + 1)))).map
          (fun i : Nat => ((i : Int), decide ((i : Int) = c))) := by
  rw [paginationHtml_eq, ← numberedControls_flatMap_body]
  unfold numberedControls
  rw [List.filterMap_append, List.filterMap_append]
  by_cases h1 : c > 1 <;> by_cases h2 : c < (T : Int) <;> simp [h1, h2, PageItem.asNumber]

theorem renderPagination_many (st : State) (dom : Dom) (prior : List PageItem)
    (hpag : dom.pagination = some prior) (hT : 2 ≤ totalPages st.filteredPosts) :
    (renderPagination st dom).pagination
      = some (paginationHtml (totalPages st.filteredPosts) st.currentPage) := by
  unfold renderPagination
  rw [hpag]
  have h : ¬ totalPages st.filteredPosts ≤ 1 := by omega
  simp [h]

theorem numberedPages_paginationHtml (T : Nat) (c : Int) :
    numberedPages (paginationHtml T c)
      = numberedPages ((List.range' 1 T).flatMap (pageLoopBody T c)) := by
  unfold numberedPages
  rw [numberedControls_paginationHtml, numberedControls_flatMap_body]

theorem mem_flatMap_body (T : Nat) (c : Int) (x : PageItem)
    (hx : x ∈ (List.range' 1 T).flatMap (pageLoopBody T c)) :
    x = PageItem.dots
      ∨ ∃ i : Nat, 1 ≤ i ∧ i ≤ T ∧ x = PageItem.number (i : Int) (decide ((i : Int) = c)) := by
  rw [List.mem_flatMap] at hx
  obtain ⟨i, hi, hxi⟩ := hx
  rw [List.mem_range'_1] at hi
  unfold pageLoopBody at hxi
  split_ifs at hxi with h1 h2
  · right
    exact ⟨i, hi.1, by omega, by simpa using hxi⟩
  · left
    simpa using hxi
  · simp at hxi

theorem dataPage_paginationHtml (T : Nat) (c : Int) (hc1 : 1 ≤ c) (hcT : c ≤ (T : Int))
    (x : PageItem) (hx : x ∈ paginationHtml T c) (page : Int)
    (hpage : x.dataPage = some page) : 1 ≤ page ∧ page ≤ (T : Int) := by
  rw [paginationHtml_eq, List.mem_append, List.mem_append] at hx
  rcases hx with (hx | hx) | hx
  · by_cases h : c > 1
    · rw [if_pos h, List.mem_singleton] at hx
      subst hx
      simp only [PageItem.dataPage, Option.some.injEq] at hpage
      omega
    · rw [if_neg h] at hx
      simp at hx
  · rcases mem_flatMap_body T c x hx with rfl | ⟨i, hi1, hiT, rfl⟩
    · simp [PageItem.dataPage] at hpage
    · simp only [PageItem.dataPage, Option.some.injEq] at hpage
      omega
  · by_cases h : c < (T : Int)
    · rw [if_pos h, List.mem_singleton] at hx
      subst hx
      simp only [PageItem.dataPage, Option.some.injEq] at hpage
      omega
    · rw [if_neg h] at hx
      simp at hx

theorem slice_zero {α : Type} (xs : List α) (n : Int) (hn : 0 ≤ n) :
    slice xs 0 n = xs.take n.toNat := by
  simp only [slice, relativeIndex]
  have h1 : ¬ ((0 : Int) < 0) := by omega
  have h2 : ¬ (n < 0) := by omega
  rw [if_neg h1, if_neg h2]
  simp only [Int.toNat_zero, Nat.zero_min, List.drop_zero, Nat.sub_zero]
  rw [List.take_eq_take]
  omega

theorem postsToShow_eq (fp : List Post) (p : Nat) (hp : 1 ≤ p) :
    postsToShow fp (p : Int) = (fp.drop ((p - 1) * 9)).take 9 := by
  apply List.ext_getElem?
  intro k
  by_cases hk : k < 9
  · rw [getElem?_postsToShow fp _ (by omega) k hk, List.getElem?_take_of_lt hk,
      List.getElem?_drop]
    simp only [Int.toNat_ofNat]
  · rw [List.getElem?_eq_none, List.getElem?_eq_none]
    · simp only [List.length_take, List.length_drop]
      omega
    · rw [length_postsToShow fp _ (by omega)]
      simp only [Int.toNat_ofNat]
      omega

theorem flatten_pages (fp : List Post) (T : Nat) :
    ((List.range' 1 T).map (fun p : Nat => postsToShow fp (p : Int))).flatten
      = fp.take (9 * T) := by
  induction T with
  | zero => simp
  | succ T ih =>
    rw [List.range'_1_concat, List.map_append, List.flatten_append, ih]
    simp only [List.map_cons, List.map_nil, List.flatten_cons, List.flatten_nil,
      List.append_nil]
    rw [postsToShow_eq fp (1 + T) (by omega)]
    have h1 : (1 + T - 1) * 9 = 9 * T := by omega
    have h2 : 9 * (T + 1) = 9 * T + 9 := by omega
    rw [h1, h2, List.take_add]

theorem renderPagination_idem (st : State) (dom : Dom) :
    renderPagination st (renderPagination st dom) = renderPagination st dom := by
  unfold renderPagination
  cases hp : dom.pagination with
  | none => simp [hp]
  | some prior =>
    by_cases hT : totalPages st.filteredPosts ≤ 1 <;> simp [hT]

theorem renderPosts_of_grid (P : Platform) (st : State) (dom : Dom) (prior : GridContent)
    (hg : dom.grid = some prior) (hlen : ¬ st.filteredPosts.length = 0) :
    renderPosts P st dom
      = renderPagination st
          { dom with grid := some (GridContent.cards
              ((postsToShow st.filteredPosts st.currentPage).map (renderCard P))) } := by
  unfold renderPosts
  rw [hg]
  simp only [hlen, if_false]

theorem dom_with_grid_self (dom : Dom) (g : Option GridContent) (hg : dom.grid = g) :
    { dom with grid := g } = dom := by
  cases dom
  simp only [Dom.mk.injEq] at hg ⊢
  simp_all

theorem categoryFilter_sublist (allPosts : List Post) (c : String) :
    (categoryFilter allPosts c).Sublist allPosts := by
  unfold categoryFilter
  split_ifs
  · exact List.Sublist.refl _
  · exact List.filter_sublist _

theorem dispatch_allPosts (P : Platform) (w : World) (e : Event) :
    (dispatch P w e).state.allPosts = w.state.allPosts := by
  cases e with
  | categoryClick i =>
    simp only [dispatch]
    split
    · rfl
    · rfl
  | pageClick i =>
    simp only [dispatch]
    split
    · rfl
    · rfl
  | search value =>
    simp only [dispatch]
    split
    · simp only [searchInputHandler]
      split_ifs <;> rfl
    · rfl

theorem dispatch_filteredPosts_sublist (P : Platform) (w : World) (e : Event)
    (h : w.state.filteredPosts.Sublist w.state.allPosts) :
    (dispatch P w e).state.filteredPosts.Sublist (dispatch P w e).state.allPosts := by
  cases e with
  | categoryClick i =>
    simp only [dispatch]
    split
    · exact categoryFilter_sublist _ _
    · exact h
  | pageClick i =>
    simp only [dispatch]
    split
    · exact h
    · exact h
  | search value =>
    simp only [dispatch]
    split
    · simp only [searchInputHandler]
      split_ifs
      · exact categoryFilter_sublist _ _
      · exact (List.filter_sublist _).trans (categoryFilter_sublist _ _)
    · exact h

theorem run_allPosts_sublist (P : Platform) (events : List Event) (w : World)
    (h : w.state.filteredPosts.Sublist w.state.allPosts) :
    (run P w events).state.allPosts = w.state.allPosts
      ∧ (run P w events).state.filteredPosts.Sublist (run P w events).state.allPosts := by
  induction events generalizing w with
  | nil => exact ⟨rfl, h⟩
  | cons e es ih =>
    have hstep := ih (dispatch P w e) (dispatch_filteredPosts_sublist P w e h)
    exact ⟨hstep.1.trans (dispatch_allPosts P w e), hstep.2⟩

theorem totalPages_pos (fp : List Post) (h : fp ≠ []) : 1 ≤ totalPages fp := by
  have hlen : 0 < fp.length := List.length_pos.mpr h
  have := (totalPages_bounds fp).1
  omega

theorem one_in_range (fp : List Post) (hne : fp ≠ []) :
    (1 : Int) ≤ 1 ∧ (1 : Int) ≤ (totalPages fp : Int) := by
  have := totalPages_pos fp hne
  constructor <;> omega

theorem renderCategories_grid (st : State) (dom : Dom) :
    (renderCategories st dom).grid = dom.grid
      ∧ (renderCategories st dom).pagination = dom.pagination := by
  unfold renderCategories
  cases dom.categories <;> exact ⟨rfl, rfl⟩

theorem renderPosts_pageInRange (P : Platform) (st : State) (dom : Dom)
    (hgrid : dom.grid = none → dom.pagination.getD [] = [])
    (hc : st.filteredPosts ≠ [] →
      1 ≤ st.currentPage ∧ st.currentPage ≤ (totalPages st.filteredPosts : Int)) :
    PageInRange { state := st, dom := renderPosts P st dom } := by
  cases hg : dom.grid with
  | none =>
    have h : renderPosts P st dom = dom := by
      unfold renderPosts; rw [hg]
    rw [h]
    refine ⟨hc, ?_, fun _ => hgrid hg⟩
    intro _ x hx
    rw [show dom.pagination.getD [] = [] from hgrid hg] at hx
    simp at hx
  | some prior =>
    by_cases hlen : st.filteredPosts.length = 0
    · have hnil : st.filteredPosts = [] := List.length_eq_zero.mp hlen
      refine ⟨hc, fun hne => absurd hnil hne, ?_⟩
      intro hnone
      exfalso
      revert hnone
      unfold renderPosts
      rw [hg]
      simp [hlen]
    · rw [renderPosts_of_grid P st dom prior hg hlen]
      have hne : st.filteredPosts ≠ [] := fun h => hlen (by rw [h]; rfl)
      obtain ⟨hc1, hcT⟩ := hc hne
      refine ⟨fun _ => ⟨hc1, hcT⟩, ?_, ?_⟩
      · intro _ x hx page hpage
        simp only [renderPagination] at hx
        cases hp : dom.pagination with
        | none =>
          simp only [hp, Option.getD_none] at hx
          simp at hx
        | some old =>
          simp only [hp] at hx
          by_cases hT : totalPages st.filteredPosts ≤ 1
          · simp only [hT, if_true, Option.getD_some] at hx
            simp at hx
          · simp only [hT, if_false, Option.getD_some] at hx
            exact dataPage_paginationHtml _ _ hc1 hcT x hx page hpage
      · intro hnone
        rw [renderPagination_grid] at hnone
        simp at hnone

theorem dispatch_pageInRange (P : Platform) (w : World) (e : Event) (h : PageInRange w) :
    PageInRange (dispatch P w e) := by
  obtain ⟨h1, h2, h3⟩ := h
  cases e with
  | categoryClick i =>
    simp only [dispatch]
    split
    · simp only [categoryClickHandler]
      apply renderPosts_pageInRange
      · exact h3
      · intro hne
        exact one_in_range _ hne
    · exact ⟨h1, h2, h3⟩
  | pageClick i =>
    simp only [dispatch]
    split
    · rename_i page hpage
      simp only [paginationClickHandler]
      apply renderPosts_pageInRange
      · exact h3
      · intro hne
        rw [Option.bind_eq_some] at hpage
        obtain ⟨x, hx, hxp⟩ := hpage
        exact h2 hne x (List.getElem?_mem hx) page hxp
    · exact ⟨h1, h2, h3⟩
  | search value =>
    simp only [dispatch]
    split
    · by_cases hq : P.toLowerCase value = "" <;>
        simp only [searchInputHandler, hq, if_true, if_false]
      · apply renderPosts_pageInRange
        · exact h3
        · intro hne
          exact one_in_range _ hne
      · apply renderPosts_pageInRange
        · exact h3
        · intro hne
          exact one_in_range _ hne
    · exact ⟨h1, h2, h3⟩

theorem run_pageInRange (P : Platform) (events : List Event) (w : World)
    (h : PageInRange w) : PageInRange (run P w events) := by
  induction events generalizing w with
  | nil => exact h
  | cons e es ih => exact ih (dispatch P w e) (dispatch_pageInRange P w e h)

theorem domContentLoaded_pageInRange (P : Platform) (outcome : FetchOutcome) (dom : Dom)
    (hdom : dom.pagination.getD [] = []) : PageInRange (domContentLoaded P outcome dom) := by
  unfold domContentLoaded
  apply renderPosts_pageInRange
  · intro _
    rw [(renderCategories_grid _ dom).2]
    exact hdom
  · intro hne
    have hc : (loadPosts outcome State.start).currentPage = 1 := by
      cases outcome <;> rfl
    rw [hc]
    exact one_in_range _ hne

theorem distinct_foldl (xs seen : List String) :
    xs.foldl (fun seen x => if x ∈ seen then seen else seen ++ [x]) seen
      = seen ++ (distinct xs).filter (fun x => decide (x ∉ seen)) := by
  induction xs generalizing seen with
  | nil => simp [distinct]
  | cons x xs ih =>
    have hd : distinct (x :: xs) = [x] ++ (distinct xs).filter (fun y => decide (y ∉ [x])) := by
      unfold distinct
      rw [List.foldl_cons]
      simp only [List.not_mem_nil, if_false, List.nil_append]
      exact ih [x]
    rw [List.foldl_cons, ih, hd]
    by_cases hx : x ∈ seen
    · rw [if_pos hx, List.filter_append, List.filter_filter]
      have h1 : List.filter (fun x => decide (x ∉ seen)) [x] = [] := by
        simp [hx]
      rw [h1, List.nil_append]
      congr 1
      apply List.filter_congr
      intro y _
      by_cases hy : y ∈ seen
      · simp [hy]
      · have : y ≠ x := fun h => hy (h ▸ hx)
        simp [hy, this]
    · rw [if_neg hx, List.filter_append, List.filter_filter, List.append_assoc]
      have h1 : List.filter (fun x => decide (x ∉ seen)) [x] = [x] := by
        simp [hx]
      rw [h1]
      congr 2
      apply List.filter_congr
      intro y _
      by_cases hy : y ∈ seen <;> by_cases hyx : y = x <;> simp [hy, hyx]

theorem distinct_cons (x : String) (xs : List String) :
    distinct (x :: xs) = x :: (distinct xs).filter (fun y => decide (y ≠ x)) := by
  unfold distinct
  rw [List.foldl_cons]
  simp only [List.not_mem_nil, if_false, List.nil_append]
  rw [distinct_foldl]
  simp [distinct]

theorem mem_distinct (xs : List String) (c : String) : c ∈ distinct xs ↔ c ∈ xs := by
  induction xs with
  | nil => simp [distinct]
  | cons x xs ih =>
    rw [distinct_cons, List.mem_cons, List.mem_cons, List.mem_filter, ih]
    by_cases h : c = x <;> simp [h]

theorem distinct_firstSeen (xs : List String) :
    (distinct xs).Pairwise (fun c d => xs.indexOf c < xs.indexOf d) := by
  induction xs with
  | nil => simp [distinct]
  | cons x xs ih =>
    rw [distinct_cons, List.pairwise_cons]
    constructor
    · intro d hd
      rw [List.mem_filter] at hd
      have hne : x ≠ d := fun h => by simp [h] at hd
      rw [List.indexOf_cons_self, List.indexOf_cons_ne _ hne]
      omega
    · apply List.Pairwise.imp_of_mem _ (ih.filter _)
      intro c d hc hd hcd
      rw [List.mem_filter] at hc hd
      have hc' : x ≠ c := fun h => by simp [h] at hc
      have hd' : x ≠ d := fun h => by simp [h] at hd
      rw [List.indexOf_cons_ne _ hc', List.indexOf_cons_ne _ hd']
      omega

theorem categoryCount_foldl (posts : List Post) (cat : String) (count : String → CountValue)
    (n : Nat) (h : count cat = CountValue.number n) :
    posts.foldl
        (fun count post => fun cat =>
          if cat = post.category then (count cat).addOne else count cat) count cat
      = CountValue.number (n + posts.countP (fun post => decide (post.category = cat))) := by
  induction posts generalizing count n with
  | nil => simpa using h
  | cons p ps ih =>
    rw [List.foldl_cons]
    by_cases hp : cat = p.category
    · have hstep : (if cat = p.category then (count cat).addOne else count cat)
          = CountValue.number (n + 1) := by
        rw [if_pos hp, h]
        rfl
      rw [ih _ (n + 1) hstep]
      rw [List.countP_cons_of_pos _ _ (by simp [hp])]
      congr 1
      omega
    · have hstep : (if cat = p.category then (count cat).addOne else count cat)
          = CountValue.number n := by
        rw [if_neg hp, h]
      rw [ih _ n hstep]
      rw [List.countP_cons_of_neg _ _ (by simpa using fun h' => hp h'.symm)]

theorem categoryCount_number (allPosts : List Post) (cat : String)
    (h : cat ∉ objectPrototypeNames) :
    categoryCount allPosts cat
      = CountValue.number (allPosts.countP (fun post => decide (post.category = cat))) := by
  unfold categoryCount
  rw [categoryCount_foldl allPosts cat _ 0 (by simp [h])]
  simp

theorem categories_renderCategories (st : State) (dom : Dom) (prior : List CategoryButton)
    (hcat : dom.categories = some prior) :
    (renderCategories st dom).categories
      = some (({ active := decide ("all" = st.currentCategory), category := "all",
                 count := CountValue.number st.allPosts.length } : CategoryButton)
          :: (distinct (st.allPosts.map (fun post => post.category))).map (fun cat =>
              ({ active := decide (cat = st.currentCategory), category := dataCategory cat,
                 count := if cat = "all" then CountValue.number st.allPosts.length
                          else categoryCount st.allPosts cat } : CategoryButton))) := by
  unfold renderCategories
  rw [hcat]
  have hall : dataCategory "all" = "all" := by decide
  simp [hall]

theorem dataCategory_plainText (s : String) (h : plainText s = true) : dataCategory s = s := by
  unfold dataCategory
  have htake : s.data.takeWhile (fun ch => decide (ch.toNat ≠ 34)) = s.data := by
    rw [List.takeWhile_eq_self_iff]
    intro ch hch
    unfold plainText at h
    rw [List.all_eq_true] at h
    have hc := h ch hch
    simp only [markupCodes, decide_eq_true_eq] at hc ⊢
    intro h34
    exact hc (by rw [h34]; decide)
  rw [htake]

theorem categoryCount_inherited :
    categoryCount [samplePost "Alpha" "constructor"] "constructor" = CountValue.other := by
  decide

/-! ## Filtering: the category and search handlers -/

/-- C1: after the category-click handler runs with selection `C`, whatever
the prior state, `filteredPosts` is the whole of `allPosts` when `C` is
`"all"`, and otherwise the posts of `allPosts` whose category equals `C`, in
their original order; `allPosts` itself is unchanged and `C` is the current
category. -/
theorem category_click_filteredPosts (P : Platform) (w : World) (target : Nat) (C : String) :
    (categoryClickHandler P w target C).state.filteredPosts =
        (if C = "all" then w.state.allPosts
         else w.state.allPosts.filter (fun post => decide (post.category = C)))
      ∧ (categoryClickHandler P w target C).state.allPosts = w.state.allPosts
      ∧ (categoryClickHandler P w target C).state.currentCategory = C := by
  simp [categoryClickHandler, categoryFilter]

/-- C2: after the search-input handler runs with the text `Q`, `filteredPosts`
is the category-filtered base set (all posts when the current category is
`"all"`) restricted to the posts whose lower-cased title or lower-cased
description contains the lower-cased `Q`, in original order; for the empty
text it is the whole base set. -/
theorem search_input_filteredPosts (P : Platform) (w : World) (Q : String)
    (hlower : P.toLowerCase "" = "") :
    (searchInputHandler P w Q).state.filteredPosts =
        (if w.state.currentCategory = "all" then w.state.allPosts
         else w.state.allPosts.filter
           (fun post => decide (post.category = w.state.currentCategory))).filter
          (fun post => decide
            ((P.toLowerCase Q).data <:+: (P.toLowerCase post.title).data ∨
             (P.toLowerCase Q).data <:+: (P.toLowerCase post.description).data))
      ∧ (searchInputHandler P w "").state.filteredPosts =
        (if w.state.currentCategory = "all" then w.state.allPosts
         else w.state.allPosts.filter
           (fun post => decide (post.category = w.state.currentCategory))) := by
  constructor
  · unfold searchInputHandler
    by_cases hq : P.toLowerCase Q = ""
    · simp only [hq, if_true, categoryFilter]
      symm
      rw [List.filter_eq_self]
      intro post _
      simp
    · simp only [hq, if_false, categoryFilter]
      apply List.filter_congr
      intro post _
      rw [Bool.eq_iff_iff]
      simp [includes_iff]
  · simp [searchInputHandler, hlower, categoryFilter]

/-- C2, at a concrete input: the query `ALPHA` typed while the category is
`"all"`. -/
theorem search_input_filteredPosts_witness :
    asciiPlatform.toLowerCase "" = "" ∧
    (searchInputHandler asciiPlatform
        { state := { allPosts := [samplePost "Alpha" "tech", samplePost "Beta" "life"],
                     filteredPosts := [], currentCategory := "all", currentPage := 3 },
          dom := emptyPage } "ALPHA").state.filteredPosts = [samplePost "Alpha" "tech"] := by
  refine ⟨by decide, ?_⟩
  rw [(search_input_filteredPosts asciiPlatform _ "ALPHA" (by decide)).1]
  decide

/-- C3, the code at the failing input: three posts are loaded, `alpha` is
typed in the search box, then the category button `tech` is clicked.  The
search box still reads `alpha` and the category is `tech`, so the invariant
asks for the single post `Alpha`; the handler has left both posts of the
category in `filteredPosts`. -/
theorem category_click_drops_active_search :
    (run asciiPlatform
        (domContentLoaded asciiPlatform (FetchOutcome.document (some threePosts)) emptyPage)
        [Event.search "alpha", Event.categoryClick 1]).dom.search = some "alpha"
      ∧ (run asciiPlatform
        (domContentLoaded asciiPlatform (FetchOutcome.document (some threePosts)) emptyPage)
        [Event.search "alpha", Event.categoryClick 1]).state.currentCategory = "tech"
      ∧ (run asciiPlatform
        (domContentLoaded asciiPlatform (FetchOutcome.document (some threePosts)) emptyPage)
        [Event.search "alpha", Event.categoryClick 1]).state.filteredPosts
          = [samplePost "Alpha" "tech", samplePost "Beta" "tech"]
      ∧ visiblePosts asciiPlatform threePosts "tech" "alpha" = [samplePost "Alpha" "tech"]
      ∧ (run asciiPlatform
        (domContentLoaded asciiPlatform (FetchOutcome.document (some threePosts)) emptyPage)
        [Event.search "alpha"]).state.filteredPosts = [samplePost "Alpha" "tech"] := by
  decide

/-- C4: whatever `currentPage` was, it is 1 after the category-click handler
runs for any category and after the search-input handler runs for any text,
empty or not. -/
theorem filter_change_resets_currentPage (P : Platform) (w : World) :
    (∀ (target : Nat) (C : String), (categoryClickHandler P w target C).state.currentPage = 1)
      ∧ (∀ Q : String, (searchInputHandler P w Q).state.currentPage = 1) := by
  constructor
  · intro target C
    simp [categoryClickHandler]
  · intro Q
    unfold searchInputHandler
    by_cases hq : P.toLowerCase Q = "" <;> simp [hq]

/-! ## Pages: `postsToShow` and `renderPosts` -/

/-- C5: for a filtered list of `N >= 1` posts, the page count `T` of
`renderPagination` is the ceiling of `N / 9`; every page `p < T` that
`renderPosts` shows holds exactly 9 posts; the last page `T` holds
`N - 9 * (T - 1)` posts, a number between 1 and 9; and for `N = 12` there are
2 pages, of 9 and of 3 posts. -/
theorem page_count_and_page_sizes (fp : List Post) (hN : 1 ≤ fp.length) :
    ((totalPages fp : Nat) : Int) = ⌈(fp.length : ℚ) / 9⌉
      ∧ (∀ p : Int, 1 ≤ p → p < (totalPages fp : Int) → (postsToShow fp p).length = 9)
      ∧ (postsToShow fp (totalPages fp : Int)).length = fp.length - 9 * (totalPages fp - 1)
      ∧ 1 ≤ (postsToShow fp (totalPages fp : Int)).length
      ∧ (postsToShow fp (totalPages fp : Int)).length ≤ 9
      ∧ (fp.length = 12 →
          totalPages fp = 2 ∧ (postsToShow fp 1).length = 9 ∧ (postsToShow fp 2).length = 3) := by
  obtain ⟨hlo, hhi⟩ := totalPages_bounds fp
  have hlast : (postsToShow fp (totalPages fp : Int)).length
      = fp.length - 9 * (totalPages fp - 1) := by
    rw [length_postsToShow fp _ (by omega)]
    simp only [Int.toNat_ofNat]
    omega
  refine ⟨totalPages_eq_ceil fp, ?_, hlast, ?_, ?_, ?_⟩
  · intro p hp1 hpT
    rw [length_postsToShow fp p hp1]
    omega
  · rw [hlast]; omega
  · rw [hlast]; omega
  · intro h12
    have hT : totalPages fp = 2 := by omega
    refine ⟨hT, ?_, ?_⟩
    · rw [length_postsToShow fp 1 (by omega)]
      simp only [Int.toNat_one]
      omega
    · rw [length_postsToShow fp 2 (by omega)]
      have h2 : (2 : Int).toNat = 2 := rfl
      rw [h2]
      omega

/-- C5, at a concrete input: twelve posts. -/
theorem page_count_and_page_sizes_witness :
    1 ≤ (List.replicate 12 (samplePost "Alpha" "tech")).length ∧
    totalPages (List.replicate 12 (samplePost "Alpha" "tech")) = 2 ∧
    (postsToShow (List.replicate 12 (samplePost "Alpha" "tech")) 1).length = 9 ∧
    (postsToShow (List.replicate 12 (samplePost "Alpha" "tech")) 2).length = 3 :=
  ⟨by decide,
   (page_count_and_page_sizes (List.replicate 12 (samplePost "Alpha" "tech"))
      (by decide)).2.2.2.2.2 (by decide)⟩

/-- C6: when the grid region exists, for a non-empty `filteredPosts` of `N`
posts and a current page `p >= 1`, so in particular for `1 <= p <= ceil(N/9)`,
`renderPosts` leaves in the grid exactly one card per post at the indices `i`
with `(p-1)*9 <= i < min(p*9, N)`, in that order, and no other card; the
card of a post links to its `url` and carries its `cover`, `title`,
`category`, formatted `date`, `author` and `description`. -/
theorem renderPosts_cards (P : Platform) (st : State) (dom : Dom) (prior : GridContent)
    (p : Nat) (hgrid : dom.grid = some prior) (hne : st.filteredPosts ≠ [])
    (hcur : st.currentPage = (p : Int)) (hp1 : 1 ≤ p) :
    ∃ cs : List Card,
      (renderPosts P st dom).grid = some (GridContent.cards cs)
        ∧ cs.length = min (p * 9) st.filteredPosts.length - (p - 1) * 9
        ∧ ∀ i : Nat, (p - 1) * 9 ≤ i → i < min (p * 9) st.filteredPosts.length →
            cs[i - (p - 1) * 9]? = (st.filteredPosts[i]?).map (fun post =>
              ({ href := post.url, imgSrc := post.cover, imgAlt := post.title,
                 category := post.category, date := P.toLocaleDateString post.date,
                 author := post.author, title := post.title,
                 description := post.description } : Card)) := by
  have hlen : ¬ st.filteredPosts.length = 0 := by
    intro h; exact hne (List.length_eq_zero.mp h)
  refine ⟨(postsToShow st.filteredPosts st.currentPage).map (renderCard P), ?_, ?_, ?_⟩
  · unfold renderPosts
    rw [hgrid]
    simp only [hlen, if_false]
    rw [renderPagination_grid]
  · rw [List.length_map, hcur, length_postsToShow _ _ (by omega)]
    simp only [Int.toNat_ofNat]
  · intro i hlo hhi
    rw [List.getElem?_map, hcur, getElem?_postsToShow _ _ (by omega) _ (by omega)]
    simp only [Int.toNat_ofNat]
    have hidx : (p - 1) * 9 + (i - (p - 1) * 9) = i := by omega
    rw [hidx]
    cases st.filteredPosts[i]? with
    | none => rfl
    | some post => simp [renderCard, formatDate]

/-- C6, at a concrete input: page 2 of twelve posts with twelve titles, on a
page whose regions are empty; the three cards are those of the posts `P10`,
`P11` and `P12`, in that order. -/
theorem renderPosts_cards_witness :
    ∃ cs : List Card,
      (renderPosts asciiPlatform
          { allPosts := twelvePosts, filteredPosts := twelvePosts,
            currentCategory := "all", currentPage := 2 } emptyPage).grid
          = some (GridContent.cards cs)
        ∧ cs.length = 3
        ∧ cs[0]? = some { href := "post.html", imgSrc := "cover.png", imgAlt := "P10",
                          category := "tech", date := "2024-01-05", author := "ann",
                          title := "P10", description := "" }
        ∧ cs[1]? = some { href := "post.html", imgSrc := "cover.png", imgAlt := "P11",
                          category := "tech", date := "2024-01-05", author := "ann",
                          title := "P11", description := "" }
        ∧ cs[2]? = some { href := "post.html", imgSrc := "cover.png", imgAlt := "P12",
                          category := "tech", date := "2024-01-05", author := "ann",
                          title := "P12", description := "" } :=
  (renderPosts_cards asciiPlatform
      { allPosts := twelvePosts, filteredPosts := twelvePosts,
        currentCategory := "all", currentPage := 2 } emptyPage (GridContent.cards []) 2
      rfl (by decide) rfl (by decide)).imp
    (fun _ h => ⟨h.1, h.2.1, h.2.2 9 (by decide) (by decide), h.2.2 10 (by decide) (by decide),
      h.2.2 11 (by decide) (by decide)⟩)

/-- C7, the code at the failing input: ten posts are loaded (two pages), a
text that matches no post is typed, then the control for page 2, still
present in the pagination region, is clicked.  `filteredPosts` is empty and
`currentPage` is 2, above `max(1, ceil(0/9)) = 1`. -/
theorem stale_page_control_leaves_range :
    (run asciiPlatform
        (domContentLoaded asciiPlatform (FetchOutcome.document (some tenPosts)) emptyPage)
        [Event.search "zzz"]).dom.pagination = some twoPageControls
      ∧ (run asciiPlatform
        (domContentLoaded asciiPlatform (FetchOutcome.document (some tenPosts)) emptyPage)
        [Event.search "zzz", Event.pageClick 1]).state.filteredPosts = []
      ∧ (run asciiPlatform
        (domContentLoaded asciiPlatform (FetchOutcome.document (some tenPosts)) emptyPage)
        [Event.search "zzz", Event.pageClick 1]).state.currentPage = 2
      ∧ ¬ ((run asciiPlatform
        (domContentLoaded asciiPlatform (FetchOutcome.document (some tenPosts)) emptyPage)
        [Event.search "zzz", Event.pageClick 1]).state.currentPage
          ≤ ((max 1 (totalPages []) : Nat) : Int)) := by
  decide

/-- C8, the code at the failing input: with `filteredPosts` empty,
`renderPosts` writes the empty-state message to the grid and returns before
`renderPagination`, so the pagination region keeps whatever it held; here the
controls of two pages rendered earlier. -/
theorem renderPosts_empty_keeps_pagination :
    (∀ (P : Platform) (st : State) (dom : Dom),
        (renderPosts P { st with filteredPosts := [] } dom).pagination = dom.pagination)
      ∧ (renderPosts asciiPlatform
          { allPosts := tenPosts, filteredPosts := [], currentCategory := "all",
            currentPage := 1 }
          { emptyPage with pagination := some twoPageControls }).grid
          = some GridContent.noPosts
      ∧ (renderPosts asciiPlatform
          { allPosts := tenPosts, filteredPosts := [], currentCategory := "all",
            currentPage := 1 }
          { emptyPage with pagination := some twoPageControls }).pagination
          = some twoPageControls
      ∧ twoPageControls ≠ [] := by
  refine ⟨?_, by decide, by decide, by decide⟩
  intro P st dom
  unfold renderPosts
  cases dom.grid <;> rfl

/-! ## The pagination controls -/

/-- C9: when the pagination region exists, for a page count `T >= 2` and a
current page `c` with `1 <= c <= T`, the numbered controls that
`renderPagination` leaves in the region are exactly the pages of
`{1, T, c-1, c, c+1}` that lie in `[1, T]`, in strictly increasing order (so
each exactly once); a numbered control is marked active exactly when its page
is `c`, and exactly one is; for `T = 10` and `c = 5` the pages are
1, 4, 5, 6, 10. -/
theorem pagination_numbered_controls (st : State) (dom : Dom) (prior : List PageItem)
    (hpag : dom.pagination = some prior) (hT : 2 ≤ totalPages st.filteredPosts)
    (hc1 : 1 ≤ st.currentPage) (hcT : st.currentPage ≤ (totalPages st.filteredPosts : Int)) :
    ∃ html : List PageItem,
      (renderPagination st dom).pagination = some html
        ∧ (∀ i : Int, i ∈ numberedPages html ↔
            (1 ≤ i ∧ i ≤ (totalPages st.filteredPosts : Int))
              ∧ (i = 1 ∨ i = (totalPages st.filteredPosts : Int) ∨ i = st.currentPage - 1
                  ∨ i = st.currentPage ∨ i = st.currentPage + 1))
        ∧ (numberedPages html).Pairwise (fun a b => a < b)
        ∧ (∀ pa ∈ numberedControls html, pa.2 = true ↔ pa.1 = st.currentPage)
        ∧ ((numberedControls html).filter (fun pa => pa.2)).length = 1
        ∧ (totalPages st.filteredPosts = 10 → st.currentPage = 5 →
            numberedPages html = [1, 4, 5, 6, 10]) := by
  refine ⟨_, renderPagination_many st dom prior hpag hT, ?_, ?_, ?_, ?_, ?_⟩
  · intro i
    simp only [numberedPages, numberedControls_paginationHtml, List.map_map, List.mem_map,
      List.mem_filter, List.mem_range'_1, decide_eq_true_eq, Function.comp]
    constructor
    · rintro ⟨a, ⟨⟨ha1, ha2⟩, hshown⟩, rfl⟩
      omega
    · rintro ⟨⟨hi1, hi2⟩, hsh⟩
      refine ⟨i.toNat, ⟨⟨by omega, by omega⟩, by omega⟩, by omega⟩
  · simp only [numberedPages, numberedControls_paginationHtml, List.map_map]
    rw [List.pairwise_map]
    apply List.Pairwise.filter
    apply (List.pairwise_lt_range' 1 (totalPages st.filteredPosts)).imp
    intro a b hab
    simp only [Function.comp]
    omega
  · intro pa hpa
    rw [numberedControls_paginationHtml, List.mem_map] at hpa
    obtain ⟨a, _, rfl⟩ := hpa
    simp
  · rw [numberedControls_paginationHtml, List.filter_map, List.length_map,
      ← List.countP_eq_length_filter]
    have hcount : ∀ l : List Nat,
        List.countP ((fun pa : Int × Bool => pa.2) ∘ fun i : Nat => ((i : Int), decide ((i : Int) = st.currentPage))) l
          = List.count st.currentPage.toNat l := by
      intro l
      unfold List.count
      apply List.countP_congr
      intro a _
      simp only [Function.comp, decide_eq_true_eq, beq_iff_eq]
      omega
    rw [hcount]
    apply List.count_eq_one_of_mem
    · exact (List.nodup_range' 1 (totalPages st.filteredPosts)).filter _
    · rw [List.mem_filter, List.mem_range'_1]
      refine ⟨⟨by omega, by omega⟩, ?_⟩
      simp only [decide_eq_true_eq]
      omega
  · intro h10 h5
    rw [h10, h5]
    decide

/-- C9, at a concrete input: 82 posts, page 5 of 10. -/
theorem pagination_numbered_controls_witness :
    2 ≤ totalPages tenPagesState.filteredPosts ∧
    ∃ html : List PageItem,
      (renderPagination tenPagesState emptyPage).pagination = some html
        ∧ numberedPages html = [1, 4, 5, 6, 10] :=
  ⟨by decide,
   (pagination_numbered_controls tenPagesState emptyPage [] rfl (by decide) (by decide)
      (by decide)).imp
    (fun _ h => ⟨h.1, h.2.2.2.2.2 (by decide) rfl⟩)⟩

/-- C10: when the pagination region exists, for a page count `T >= 2` and a
current page `c` with `1 <= c <= T`, the text that `renderPagination` leaves
in the region is the Previous control (when `c > 1`), then the numbered
controls with exactly one ellipsis marker between two consecutive ones whose
pages differ by more than 1 and none anywhere else, then the Next control
(when `c < T`); for `T = 10` and `c = 5` there is one ellipsis between 1 and
4 and one between 6 and 10. -/
theorem pagination_ellipses (st : State) (dom : Dom) (prior : List PageItem)
    (hpag : dom.pagination = some prior) (hT : 2 ≤ totalPages st.filteredPosts)
    (hc1 : 1 ≤ st.currentPage) (hcT : st.currentPage ≤ (totalPages st.filteredPosts : Int)) :
    ∃ html : List PageItem,
      (renderPagination st dom).pagination = some html
        ∧ html =
            (if st.currentPage > 1 then [PageItem.previous (st.currentPage - 1)] else [])
              ++ withEllipses st.currentPage (numberedPages html)
              ++ (if st.currentPage < (totalPages st.filteredPosts : Int)
                  then [PageItem.next (st.currentPage + 1)] else [])
        ∧ (totalPages st.filteredPosts = 10 → st.currentPage = 5 →
            html = [PageItem.previous 4, PageItem.number 1 false, PageItem.dots,
              PageItem.number 4 false, PageItem.number 5 true, PageItem.number 6 false,
              PageItem.dots, PageItem.number 10 false, PageItem.next 6]) := by
  refine ⟨_, renderPagination_many st dom prior hpag hT, ?_, ?_⟩
  · rw [numberedPages_paginationHtml]
    obtain ⟨n, hn⟩ : ∃ n : Nat, st.currentPage = (n : Int) := ⟨st.currentPage.toNat, by omega⟩
    rw [hn] at hc1 hcT ⊢
    rw [← pageLoop_window _ n (by omega) (by omega)]
    exact paginationHtml_eq _ _
  · intro h10 h5
    rw [h10, h5]
    decide

/-- C10, at a concrete input: 82 posts, page 5 of 10. -/
theorem pagination_ellipses_witness :
    2 ≤ totalPages tenPagesState.filteredPosts ∧
    ∃ html : List PageItem,
      (renderPagination tenPagesState emptyPage).pagination = some html
        ∧ html = [PageItem.previous 4, PageItem.number 1 false, PageItem.dots,
            PageItem.number 4 false, PageItem.number 5 true, PageItem.number 6 false,
            PageItem.dots, PageItem.number 10 false, PageItem.next 6] :=
  ⟨by decide,
   (pagination_ellipses tenPagesState emptyPage [] rfl (by decide) (by decide)
      (by decide)).imp
    (fun _ h => ⟨h.1, h.2.2 (by decide) rfl⟩)⟩

/-! ## Previous and Next -/

/-- C11: when the pagination region exists, for a page count `T >= 2` and a
current page `c` with `1 <= c <= T`, `renderPagination` renders a Previous
control exactly when `c > 1`, targeting `c - 1` and placed before the
numbered controls and ellipses, and a Next control exactly when `c < T`,
targeting `c + 1` and placed after them; every control it renders targets a
page in `[1, T]`. -/
theorem pagination_previous_next (st : State) (dom : Dom) (prior : List PageItem)
    (hpag : dom.pagination = some prior) (hT : 2 ≤ totalPages st.filteredPosts)
    (hc1 : 1 ≤ st.currentPage) (hcT : st.currentPage ≤ (totalPages st.filteredPosts : Int)) :
    ∃ html middle : List PageItem,
      (renderPagination st dom).pagination = some html
        ∧ html =
            (if st.currentPage > 1 then [PageItem.previous (st.currentPage - 1)] else [])
              ++ middle
              ++ (if st.currentPage < (totalPages st.filteredPosts : Int)
                  then [PageItem.next (st.currentPage + 1)] else [])
        ∧ (∀ x ∈ middle, x = PageItem.dots ∨ ∃ p a, x = PageItem.number p a)
        ∧ (∀ t : Int, PageItem.previous t ∈ html ↔ (st.currentPage > 1 ∧ t = st.currentPage - 1))
        ∧ (∀ t : Int, PageItem.next t ∈ html ↔
            (st.currentPage < (totalPages st.filteredPosts : Int) ∧ t = st.currentPage + 1))
        ∧ (∀ x ∈ html, ∀ page : Int, x.dataPage = some page →
            1 ≤ page ∧ page ≤ (totalPages st.filteredPosts : Int)) := by
  have hmid : ∀ x ∈ (List.range' 1 (totalPages st.filteredPosts)).flatMap
      (pageLoopBody (totalPages st.filteredPosts) st.currentPage),
      x = PageItem.dots ∨ ∃ p a, x = PageItem.number p a := by
    intro x hx
    rcases mem_flatMap_body _ _ x hx with h | ⟨i, _, _, h⟩
    · exact Or.inl h
    · exact Or.inr ⟨_, _, h⟩
  refine ⟨_, _, renderPagination_many st dom prior hpag hT, paginationHtml_eq _ _, hmid, ?_, ?_,
    fun x hx page hpage => dataPage_paginationHtml _ _ hc1 hcT x hx page hpage⟩
  · intro t
    rw [paginationHtml_eq, List.mem_append, List.mem_append]
    constructor
    · rintro ((h | h) | h)
      · by_cases hc : st.currentPage > 1
        · rw [if_pos hc] at h
          simp only [List.mem_singleton, PageItem.previous.injEq] at h
          exact ⟨hc, h⟩
        · rw [if_neg hc] at h
          simp at h
      · rcases hmid _ h with h' | ⟨p, a, h'⟩ <;> simp at h'
      · by_cases hc : st.currentPage < (totalPages st.filteredPosts : Int)
        · rw [if_pos hc] at h
          simp at h
        · rw [if_neg hc] at h
          simp at h
    · rintro ⟨hc, rfl⟩
      left; left
      rw [if_pos hc]
      simp
  · intro t
    rw [paginationHtml_eq, List.mem_append, List.mem_append]
    constructor
    · rintro ((h | h) | h)
      · by_cases hc : st.currentPage > 1
        · rw [if_pos hc] at h
          simp at h
        · rw [if_neg hc] at h
          simp at h
      · rcases hmid _ h with h' | ⟨p, a, h'⟩ <;> simp at h'
      · by_cases hc : st.currentPage < (totalPages st.filteredPosts : Int)
        · rw [if_pos hc] at h
          simp only [List.mem_singleton, PageItem.next.injEq] at h
          exact ⟨hc, h⟩
        · rw [if_neg hc] at h
          simp at h
    · rintro ⟨hc, rfl⟩
      right
      rw [if_pos hc]
      simp

/-- C11, at a concrete input: 82 posts, page 5 of 10. -/
theorem pagination_previous_next_witness :
    2 ≤ totalPages tenPagesState.filteredPosts ∧
    ∃ html : List PageItem,
      (renderPagination tenPagesState emptyPage).pagination = some html
        ∧ PageItem.previous 4 ∈ html ∧ PageItem.next 6 ∈ html :=
  ⟨by decide,
   Exists.elim
    (pagination_previous_next tenPagesState emptyPage [] rfl (by decide) (by decide) (by decide))
    (fun html h => Exists.elim h (fun _ h =>
      ⟨html, h.1, (h.2.2.2.1 4).2 ⟨by decide, rfl⟩, (h.2.2.2.2.1 6).2 ⟨by decide, rfl⟩⟩))⟩

/-! ## The category controls -/

/-- C12 as stated fails: with a post whose category is named `all`,
`renderCategories` renders two controls that carry the value `all`, and the
second is labelled with the total, 2, while one post has that category. -/
theorem renderCategories_duplicate_all :
    (renderCategories
        { allPosts := allNamedPosts, filteredPosts := allNamedPosts, currentCategory := "all",
          currentPage := 1 } emptyPage).categories
      = some [{ active := true, category := "all", count := CountValue.number 2 },
              { active := true, category := "all", count := CountValue.number 2 },
              { active := false, category := "tech", count := CountValue.number 1 }]
      ∧ ¬ (["all", "all", "tech"] : List String).Nodup
      ∧ allNamedPosts.countP (fun post => decide (post.category = "all")) = 1 := by
  decide

/-- C12 in the page itself: a category that contains a double quote is
written unescaped into `data-category`, which then ends at the quote; the
two categories of `quotedPosts` give two controls that carry the value `a`. -/
theorem renderCategories_quoted_category :
    (renderCategories
        { allPosts := quotedPosts, filteredPosts := quotedPosts, currentCategory := "all",
          currentPage := 1 } emptyPage).categories
      = some [{ active := true, category := "all", count := CountValue.number 2 },
              { active := false, category := "a", count := CountValue.number 1 },
              { active := false, category := "a", count := CountValue.number 1 }] := by
  decide

/-- C12, amended: when the categories region exists and the categories of
`allPosts` are plain text, `renderCategories` renders the control for `all`
first, labelled with the total number of posts, followed by exactly one
control per category value present in `allPosts`, in first-seen order, no
two of them with the same category value; every such control whose category
is neither `all` nor a name that all objects inherit is labelled with the
number of posts of that category; and when no post has the category `all`,
no two controls at all carry the same category value. -/
theorem renderCategories_controls (st : State) (dom : Dom) (prior : List CategoryButton)
    (hcat : dom.categories = some prior)
    (hplain : ∀ post ∈ st.allPosts, plainText post.category = true) :
    ∃ rest : List CategoryButton,
      (renderCategories st dom).categories
          = some (({ active := decide ("all" = st.currentCategory), category := "all",
                     count := CountValue.number st.allPosts.length } : CategoryButton) :: rest)
        ∧ (∀ c : String, c ∈ rest.map CategoryButton.category ↔
            ∃ post ∈ st.allPosts, post.category = c)
        ∧ (rest.map CategoryButton.category).Pairwise (fun c d =>
            (st.allPosts.map (fun post => post.category)).indexOf c
              < (st.allPosts.map (fun post => post.category)).indexOf d)
        ∧ (rest.map CategoryButton.category).Nodup
        ∧ (∀ b ∈ rest, b.category ≠ "all" → b.category ∉ objectPrototypeNames →
            b.count = CountValue.number
              (st.allPosts.countP (fun post => decide (post.category = b.category))))
        ∧ ((∀ post ∈ st.allPosts, post.category ≠ "all") →
            ("all" :: rest.map CategoryButton.category).Nodup) := by
  have hmem : ∀ c : String, c ∈ distinct (st.allPosts.map (fun post => post.category)) ↔
      ∃ post ∈ st.allPosts, post.category = c := by
    intro c
    rw [mem_distinct, List.mem_map]
  have hread : ∀ cat ∈ distinct (st.allPosts.map (fun post => post.category)),
      dataCategory cat = cat := by
    intro cat hcatmem
    obtain ⟨post, hpost, rfl⟩ := (hmem cat).1 hcatmem
    exact dataCategory_plainText _ (hplain post hpost)
  have hmap : ((distinct (st.allPosts.map (fun post => post.category))).map (fun cat =>
      ({ active := decide (cat = st.currentCategory), category := dataCategory cat,
         count := if cat = "all" then CountValue.number st.allPosts.length
                  else categoryCount st.allPosts cat } : CategoryButton))).map
        CategoryButton.category
      = distinct (st.allPosts.map (fun post => post.category)) := by
    rw [List.map_map]
    calc List.map _ (distinct (st.allPosts.map (fun post => post.category)))
        = List.map id (distinct (st.allPosts.map (fun post => post.category))) :=
          List.map_congr_left (fun cat hc => hread cat hc)
      _ = _ := List.map_id _
  have hnodup : (distinct (st.allPosts.map (fun post => post.category))).Nodup :=
    (distinct_firstSeen _).imp (fun h heq => by rw [heq] at h; exact lt_irrefl _ h)
  refine ⟨_, categories_renderCategories st dom prior hcat, ?_, ?_, ?_, ?_, ?_⟩
  · intro c
    rw [hmap]
    exact hmem c
  · rw [hmap]
    exact distinct_firstSeen _
  · rw [hmap]
    exact hnodup
  · intro b hb hnotall hname
    rw [List.mem_map] at hb
    obtain ⟨cat, hcatmem, rfl⟩ := hb
    simp only [hread cat hcatmem] at hnotall hname ⊢
    rw [if_neg hnotall, categoryCount_number _ _ hname]
  · intro hall
    rw [hmap, List.nodup_cons]
    refine ⟨?_, hnodup⟩
    intro h
    obtain ⟨post, hpost, hc⟩ := (hmem "all").1 h
    exact hall post hpost hc

/-- C12 amended, at a concrete input: three posts in two categories, all of
them plain text and none named `all`. -/
theorem renderCategories_controls_witness :
    (∀ post ∈ threePosts, plainText post.category = true) ∧
    ∃ rest : List CategoryButton,
      (renderCategories
          { allPosts := threePosts, filteredPosts := threePosts, currentCategory := "all",
            currentPage := 1 } emptyPage).categories
          = some (({ active := true, category := "all",
                     count := CountValue.number 3 } : CategoryButton) :: rest)
        ∧ rest.map CategoryButton.category = ["tech", "life"]
        ∧ ("all" :: rest.map CategoryButton.category).Nodup :=
  ⟨by decide,
   (renderCategories_controls
      { allPosts := threePosts, filteredPosts := threePosts, currentCategory := "all",
        currentPage := 1 } emptyPage [] rfl (by decide)).imp
    (fun _ h => ⟨h.1, by
      have h1 := h.1
      simp only [renderCategories] at h1
      injection h1 with h1
      injection h1 with _ h1
      rw [← h1]
      decide, h.2.2.2.2.2 (by decide)⟩)⟩

/-! ## `getLatestPosts` and `loadPosts` -/

/-- C13: for every count `n >= 0`, `getLatestPosts(n)` returns the first
`min(n, |allPosts|)` posts of `allPosts` in their order, and the first 3 when
called without argument; the result is the same whatever `filteredPosts`,
`currentCategory` and `currentPage` are.  The function returns a list only:
it assigns none of the variables. -/
theorem getLatestPosts_first (st : State) (n : Int) (hn : 0 ≤ n) :
    getLatestPosts st (some n) = st.allPosts.take n.toNat
      ∧ (getLatestPosts st (some n)).length = min n.toNat st.allPosts.length
      ∧ getLatestPosts st none = st.allPosts.take 3
      ∧ (∀ (filteredPosts : List Post) (currentCategory : String) (currentPage : Int),
          getLatestPosts
              { allPosts := st.allPosts, filteredPosts := filteredPosts,
                currentCategory := currentCategory, currentPage := currentPage } (some n)
            = getLatestPosts st (some n)) := by
  refine ⟨slice_zero _ _ hn, ?_, slice_zero _ 3 (by omega), fun _ _ _ => rfl⟩
  unfold getLatestPosts
  rw [Option.getD_some, slice_zero _ _ hn, List.length_take]

/-- C13, at a concrete input: the first 3 of ten posts. -/
theorem getLatestPosts_first_witness :
    (0 : Int) ≤ 3 ∧
    getLatestPosts
        { allPosts := tenPosts, filteredPosts := [], currentCategory := "tech",
          currentPage := 2 } (some 3)
      = tenPosts.take 3 :=
  ⟨by decide,
   (getLatestPosts_first
      { allPosts := tenPosts, filteredPosts := [], currentCategory := "tech",
        currentPage := 2 } 3 (by decide)).1⟩

/-- C14: `loadPosts` returns a state for every outcome of the fetch: when the
fetch or the parse fails, `allPosts` and `filteredPosts` are both empty; when
the document has no `posts` field, both are empty; when it has a `posts`
array, both equal that array, element for element in the same order.  The
other two variables are left as they were. -/
theorem loadPosts_outcomes (st : State) :
    ((loadPosts FetchOutcome.failure st).allPosts = []
        ∧ (loadPosts FetchOutcome.failure st).filteredPosts = [])
      ∧ ((loadPosts (FetchOutcome.document none) st).allPosts = []
        ∧ (loadPosts (FetchOutcome.document none) st).filteredPosts = [])
      ∧ (∀ posts : List Post,
          (loadPosts (FetchOutcome.document (some posts)) st).allPosts = posts
            ∧ (loadPosts (FetchOutcome.document (some posts)) st).filteredPosts = posts)
      ∧ (∀ outcome : FetchOutcome,
          (loadPosts outcome st).currentCategory = st.currentCategory
            ∧ (loadPosts outcome st).currentPage = st.currentPage) := by
  refine ⟨⟨rfl, rfl⟩, ⟨rfl, rfl⟩, fun _ => ⟨rfl, rfl⟩, ?_⟩
  intro outcome
  cases outcome <;> exact ⟨rfl, rfl⟩

/-! ## Invariants of the reachable states -/

/-- C15: in every state reached from a completed load by a sequence of
category clicks, search inputs and page-control clicks, `allPosts` is the
list that was loaded and `filteredPosts` is a sub-sequence of it: posts of
`allPosts` only, in the same relative order, none repeated more often than
in `allPosts`. -/
theorem filteredPosts_subsequence (P : Platform) (outcome : FetchOutcome) (dom : Dom)
    (events : List Event) :
    (run P (domContentLoaded P outcome dom) events).state.allPosts
        = (loadPosts outcome State.start).allPosts
      ∧ (run P (domContentLoaded P outcome dom) events).state.filteredPosts.Sublist
          (run P (domContentLoaded P outcome dom) events).state.allPosts
      ∧ (∀ post : Post,
          (run P (domContentLoaded P outcome dom) events).state.filteredPosts.count post
            ≤ (run P (domContentLoaded P outcome dom) events).state.allPosts.count post) := by
  have hinit : (domContentLoaded P outcome dom).state.filteredPosts.Sublist
      (domContentLoaded P outcome dom).state.allPosts := by
    cases outcome <;> exact List.Sublist.refl _
  obtain ⟨h1, h2⟩ := run_allPosts_sublist P events _ hinit
  exact ⟨h1, h2, fun post => h2.count_le post⟩

/-- C16: for every state and every prior content of the page, running
`renderPosts` twice in succession leaves the page, the grid and the
pagination region included, exactly as a single run does.  The function
returns the page only: it assigns none of the variables. -/
theorem renderPosts_idempotent (P : Platform) (st : State) (dom : Dom) :
    renderPosts P st (renderPosts P st dom) = renderPosts P st dom := by
  cases hg : dom.grid with
  | none =>
    have h : renderPosts P st dom = dom := by
      unfold renderPosts; rw [hg]
    rw [h, h]
  | some prior =>
    by_cases hlen : st.filteredPosts.length = 0
    · have h : ∀ d : Dom, d.grid.isSome →
          renderPosts P st d = { d with grid := some GridContent.noPosts } := by
        intro d hd
        unfold renderPosts
        cases hdg : d.grid with
        | none => rw [hdg] at hd; simp at hd
        | some _ => simp [hlen]
      rw [h dom (by rw [hg]; rfl),
        h { dom with grid := some GridContent.noPosts } rfl]
    · rw [renderPosts_of_grid P st dom prior hg hlen]
      have hg1 := renderPagination_grid st
        { dom with grid := some (GridContent.cards
            ((postsToShow st.filteredPosts st.currentPage).map (renderCard P))) }
      rw [renderPosts_of_grid P st _ _ hg1 hlen, dom_with_grid_self _ _ hg1,
        renderPagination_idem]

/-- C17: for every `filteredPosts`, the slices that `renderPosts` shows for
`currentPage = 1, 2, ..., ceil(N/9)`, concatenated in that order, are
`filteredPosts` itself. -/
theorem pages_concatenate (fp : List Post) :
    ((List.range' 1 (totalPages fp)).map (fun p : Nat => postsToShow fp (p : Int))).flatten
      = fp := by
  rw [flatten_pages]
  exact List.take_of_length_le (totalPages_bounds fp).1

/-- C18: in every state reached from a completed load, on a page whose
pagination region is absent or initially empty, by a sequence of category
clicks, search inputs and clicks on controls present in the pagination
region, a non-empty `filteredPosts` has `1 <= currentPage <= ceil(N/9)`, and
the slice that `renderPosts` shows is not empty. -/
theorem nonempty_result_page_in_range (P : Platform) (outcome : FetchOutcome) (dom : Dom)
    (events : List Event) (hdom : dom.pagination.getD [] = [])
    (hne : (run P (domContentLoaded P outcome dom) events).state.filteredPosts ≠ []) :
    1 ≤ (run P (domContentLoaded P outcome dom) events).state.currentPage
      ∧ (run P (domContentLoaded P outcome dom) events).state.currentPage
          ≤ (totalPages (run P (domContentLoaded P outcome dom) events).state.filteredPosts : Int)
      ∧ postsToShow (run P (domContentLoaded P outcome dom) events).state.filteredPosts
          (run P (domContentLoaded P outcome dom) events).state.currentPage ≠ [] := by
  obtain ⟨h1, -, -⟩ := run_pageInRange P events _ (domContentLoaded_pageInRange P outcome dom hdom)
  obtain ⟨hc1, hcT⟩ := h1 hne
  refine ⟨hc1, hcT, ?_⟩
  intro hnil
  have hlen := length_postsToShow
    (run P (domContentLoaded P outcome dom) events).state.filteredPosts _ hc1
  rw [hnil] at hlen
  have hb := totalPages_bounds (run P (domContentLoaded P outcome dom) events).state.filteredPosts
  have hpos := List.length_pos.mpr hne
  simp only [List.length_nil] at hlen
  omega

/-- C18, at a concrete input: ten posts, then a click on the control for
page 2. -/
theorem nonempty_result_page_in_range_witness :
    (run asciiPlatform
        (domContentLoaded asciiPlatform (FetchOutcome.document (some tenPosts)) emptyPage)
        [Event.pageClick 1]).state.currentPage = 2
      ∧ postsToShow (run asciiPlatform
        (domContentLoaded asciiPlatform (FetchOutcome.document (some tenPosts)) emptyPage)
        [Event.pageClick 1]).state.filteredPosts
          (run asciiPlatform
        (domContentLoaded asciiPlatform (FetchOutcome.document (some tenPosts)) emptyPage)
        [Event.pageClick 1]).state.currentPage ≠ [] :=
  ⟨by decide,
   (nonempty_result_page_in_range asciiPlatform (FetchOutcome.document (some tenPosts))
      emptyPage [Event.pageClick 1] rfl (by decide)).2.2⟩

end BlogManager
